import Mathlib

/-!
Verification development for the procedural-terrain subsystem in
`src/project/game/static_generators/terrain_generator.py`.

Modelling conventions:
* Python floats are embedded as exact rationals (`ℚ`); Python ints as `ℤ`.
* `x & 255` on a Python int equals `x % 256` (Euclidean remainder), which is
  what `Int.emod` computes for a positive modulus.
* The permutation table produced by `random.shuffle` in
  `NoiseGenerator.__init__` is modelled as an arbitrary table
  `Fin 256 → Fin 256`; no property proved here depends on it being a
  bijection, only on its values lying in `[0, 256)`, which the table-building
  code guarantees.  The doubling `self.perm += self.perm` only serves
  wraparound, which the `% 256` masking makes explicit.
-/

namespace TerrainGen

/-- The fixed list `grad2` of 8 gradient vectors from `NoiseGenerator.__init__`. -/
def grad2 : Fin 8 → ℤ × ℤ
  | 0 => (1, 1)
  | 1 => (-1, 1)
  | 2 => (1, -1)
  | 3 => (-1, -1)
  | 4 => (1, 0)
  | 5 => (-1, 0)
  | 6 => (0, 1)
  | 7 => (0, -1)

/-- Python `n & 255` on an arbitrary int: nonnegative remainder mod 256. -/
def wrap256 (n : ℤ) : Fin 256 :=
  ⟨(n % 256).toNat, by omega⟩

/-- State of `NoiseGenerator`: the seeded, shuffled permutation table. -/
structure NoiseGenerator where
  perm : Fin 256 → Fin 256

/-- `NoiseGenerator._fade`: quintic smoothing `t*t*t*(t*(t*6-15)+10)`. -/
def fade (t : ℚ) : ℚ := t * t * t * (t * (t * 6 - 15) + 10)

/-- `NoiseGenerator._lerp`: `a + t*(b-a)`. -/
def lerp (a b t : ℚ) : ℚ := a + t * (b - a)

/-- `NoiseGenerator._gradient`: pick a gradient via the hashed permutation
lookup `perm[(ix + perm[iy & 255]) & 255] % 8` and dot it with `(fx, fy)`. -/
def NoiseGenerator.gradient (ng : NoiseGenerator) (ix iy : ℤ) (fx fy : ℚ) : ℚ :=
  let g_idx : Fin 8 :=
    ⟨(ng.perm (wrap256 (ix + (ng.perm (wrap256 iy) : ℕ)))) % 8, Nat.mod_lt _ (by decide)⟩
  let g := grad2 g_idx
  (g.1 : ℚ) * fx + (g.2 : ℚ) * fy

/-- `NoiseGenerator.noise2d`: four-corner gradient noise with quintic fade,
bilinear interpolation, scaled by `0.707`. -/
def NoiseGenerator.noise2d (ng : NoiseGenerator) (x y : ℚ) : ℚ :=
  -- Integer coordinates
  let ix0 : ℤ := ⌊x⌋
  let iy0 : ℤ := ⌊y⌋
  -- Fractional coordinates
  let fx : ℚ := x - ix0
  let fy : ℚ := y - iy0
  -- Wrap to 0-255 range (`ix, iy = ix & 255, iy & 255`)
  let ix : ℤ := ix0 % 256
  let iy : ℤ := iy0 % 256
  -- Contributions from the 4 corners
  let n00 := ng.gradient ix iy fx fy
  let n01 := ng.gradient ix (iy + 1) fx (fy - 1)
  let n10 := ng.gradient (ix + 1) iy (fx - 1) fy
  let n11 := ng.gradient (ix + 1) (iy + 1) (fx - 1) (fy - 1)
  -- Smoothing
  let fx' := fade fx
  let fy' := fade fy
  -- Interpolate
  let nx0 := lerp n00 n10 fx'
  let nx1 := lerp n01 n11 fx'
  let n := lerp nx0 nx1 fy'
  -- Scale to [-1, 1]
  n * (707 / 1000)

/-- The `for _ in range(octaves)` loop body of `NoiseGenerator.fbm`, with loop
state `(total, frequency, amplitude, max_value)`; returns the final
`(total, max_value)`. -/
def fbmLoop (ng : NoiseGenerator) (x y persistence lacunarity : ℚ) :
    ℕ → ℚ → ℚ → ℚ → ℚ → ℚ × ℚ
  | 0, total, _frequency, _amplitude, max_value => (total, max_value)
  | n + 1, total, frequency, amplitude, max_value =>
      fbmLoop ng x y persistence lacunarity n
        (total + ng.noise2d (x * frequency) (y * frequency) * amplitude)
        (frequency * lacunarity)
        (amplitude * persistence)
        (max_value + amplitude)

/-- `NoiseGenerator.fbm`: sum `octaves` noise layers, then normalize by
`max(max_value, 1e-6)`.  A Python `range` over a nonpositive int is empty,
hence the `Int.toNat` fuel. -/
def NoiseGenerator.fbm (ng : NoiseGenerator) (x y : ℚ) (octaves : ℤ)
    (persistence lacunarity : ℚ) : ℚ :=
  let r := fbmLoop ng x y persistence lacunarity octaves.toNat 0 1 1 0
  r.1 / max r.2 (1 / 1000000)

/-- A concrete noise generator (identity permutation table) used to
instantiate universally quantified theorems at a specific input. -/
def ng0 : NoiseGenerator := ⟨id⟩

/-! ### Terrain generator configuration and construction -/

/-- Python `int(q)` applied to a float: truncation toward zero. -/
def pyInt (q : ℚ) : ℤ := if 0 ≤ q then ⌊q⌋ else ⌈q⌉

/-- The `terrain_settings` dictionary held by `TerrainGenerator` (all keys of
the defaults dict in `_get_terrain_settings`). -/
structure TGSettings where
  seed : ℤ
  chunk_size : ℚ
  view_distance : ℤ
  height_scale : ℚ
  noise_scale : ℚ
  octaves : ℤ
  persistence : ℚ
  lacunarity : ℚ
  water_level : ℚ
  biome_scale : ℚ
  feature_density : ℚ
  detail_mesh_size : ℚ
  use_textures : Bool
  generate_features : Bool
deriving DecidableEq

/-- The `terrain_generation` section of the configuration constants.
`_get_terrain_settings` copies a key into the settings only when the config
section contains it, hence the `Option` fields. -/
structure TerrainConfig where
  seed : Option ℤ := none
  chunk_size : Option ℚ := none
  view_distance : Option ℤ := none
  height_scale : Option ℚ := none
  noise_scale : Option ℚ := none
  octaves : Option ℤ := none
  persistence : Option ℚ := none
  lacunarity : Option ℚ := none
  water_level : Option ℚ := none
  biome_scale : Option ℚ := none
  feature_density : Option ℚ := none
  detail_mesh_size : Option ℚ := none
  use_textures : Option Bool := none
  generate_features : Option Bool := none

/-- `TerrainGenerator._get_terrain_settings`: the defaults dictionary, with
every key present in the config section overriding its default.
`randomSeed` stands for the `random.randint(0, 999999)` default draw. -/
def getTerrainSettings (cfg : TerrainConfig) (randomSeed : ℤ) : TGSettings where
  seed := cfg.seed.getD randomSeed
  chunk_size := cfg.chunk_size.getD 16
  view_distance := cfg.view_distance.getD 3
  height_scale := cfg.height_scale.getD 15
  noise_scale := cfg.noise_scale.getD (1/100)
  octaves := cfg.octaves.getD 4
  persistence := cfg.persistence.getD (1/2)
  lacunarity := cfg.lacunarity.getD 2
  water_level := cfg.water_level.getD (-2)
  biome_scale := cfg.biome_scale.getD (1/200)
  feature_density := cfg.feature_density.getD (1/100)
  detail_mesh_size := cfg.detail_mesh_size.getD 2
  use_textures := cfg.use_textures.getD false
  generate_features := cfg.generate_features.getD true

/-- `TerrainGenerator.__init__`: builds the settings, then force-overrides
`detail_mesh_size`, `view_distance` and `feature_density` (the three
"OPTIMIZATION" assignments).  The constructor contains no configuration
validation and no code path that raises for bad config values, so the result
is always `Except.ok`. -/
def mkTerrainGenerator (cfg : TerrainConfig) (randomSeed : ℤ) :
    Except String TGSettings :=
  let s := getTerrainSettings cfg randomSeed
  Except.ok { s with detail_mesh_size := 2, view_distance := 3,
                     feature_density := 1/100 }

/-- Default settings: empty config section, default-seed draw `0`. -/
def tg0 : TGSettings := getTerrainSettings {} 0

/-! ### Height sampling and the height cache -/

/-- `self.height_cache`: a map from exact world coordinates to heights,
modelled as an association list (entries are only ever added on a miss, so
keys are never duplicated). -/
abbrev HeightCache := List ((ℚ × ℚ) × ℚ)

/-- The pure height value computed on a cache miss in
`calculate_terrain_height`: noise-space scaling, base fbm, additive
large-scale (`×0.2` frequency, weight `0.3`) and medium-scale (`×2`
frequency, weight `0.15`) terms, scaled by `height_scale`. -/
def terrainHeight (tg : TGSettings) (ng : NoiseGenerator)
    (world_x world_y : ℚ) : ℚ :=
  let nx := world_x * tg.noise_scale
  let ny := world_y * tg.noise_scale
  let height := ng.fbm nx ny tg.octaves tg.persistence tg.lacunarity
  let large_scale := ng.noise2d (nx * (2/10)) (ny * (2/10)) * (3/10)
  let medium_scale := ng.noise2d (nx * 2) (ny * 2) * (15/100)
  let combined_height := height + large_scale + medium_scale
  combined_height * tg.height_scale

/-- `TerrainGenerator.calculate_terrain_height`: return the cached height if
the key is present, otherwise compute the height, write it to the cache and
return it.  The third component counts the noise-generator evaluations the
call performs (`octaves` inside `fbm`, plus the two extra `noise2d` calls);
it is `0` on a cache hit. -/
def calculate_terrain_height (tg : TGSettings) (ng : NoiseGenerator)
    (cache : HeightCache) (world_x world_y : ℚ) : ℚ × HeightCache × ℕ :=
  match cache.lookup (world_x, world_y) with
  | some h => (h, cache, 0)
  | none =>
      let final_height := terrainHeight tg ng world_x world_y
      (final_height, ((world_x, world_y), final_height) :: cache,
        tg.octaves.toNat + 2)

/-- A cache is well formed when every entry stores exactly the height that a
miss would compute for its key; every cache arising in an execution is. -/
def WFCache (tg : TGSettings) (ng : NoiseGenerator) (cache : HeightCache) : Prop :=
  ∀ x y v, cache.lookup (x, y) = some v → v = terrainHeight tg ng x y

/-! ### Feature scatter (`generate_chunk_features`) -/

/-- Abstract model of Python's global `random` module state: `seedWith n` is
the state right after `random.seed(n)` (a function of `n` alone), `next` is
one draw of `random.random()`. -/
structure RandomModel (S : Type) where
  seedWith : ℤ → S
  next : S → ℚ × S

/-- `random.uniform(a, b)`, which CPython computes as
`a + (b - a) * random()`. -/
def RandomModel.uniform {S : Type} (R : RandomModel S) (a b : ℚ) (s : S) : ℚ × S :=
  let r := R.next s
  (a + (b - a) * r.1, r.2)

/-- Accept/reject decision for one scatter candidate. -/
inductive Decision
  | rejectedWater
  | rejectedSlope
  | accepted
deriving DecidableEq

/-- One candidate produced by `generate_chunk_features`: the sampled world
position and the decision taken for it. -/
structure Candidate where
  x_pos : ℚ
  y_pos : ℚ
  decision : Decision
deriving DecidableEq

/-- The `for i in range(expected_features)` loop of
`generate_chunk_features`.  The steepness test `sqrt(sx² + sy²) > 0.7` is
written on squares (`sx² + sy² > 0.49`), which is equivalent since both
sides of the original comparison are nonnegative. -/
def gcfLoop (tg : TGSettings) (ng : NoiseGenerator) {S : Type} (R : RandomModel S)
    (world_x_base world_y_base : ℚ) :
    ℕ → HeightCache → S → List Candidate × HeightCache × S
  | 0, cache, rng => ([], cache, rng)
  | n + 1, cache, rng =>
      let u1 := R.uniform 0 tg.chunk_size rng
      let u2 := R.uniform 0 tg.chunk_size u1.2
      let x_pos := world_x_base + u1.1
      let y_pos := world_y_base + u2.1
      let h0 := calculate_terrain_height tg ng cache x_pos y_pos
      if h0.1 ≤ tg.water_level then
        let rest := gcfLoop tg ng R world_x_base world_y_base n h0.2.1 u2.2
        (⟨x_pos, y_pos, Decision.rejectedWater⟩ :: rest.1, rest.2)
      else
        let p1 := calculate_terrain_height tg ng h0.2.1 (x_pos + 1/2) y_pos
        let p2 := calculate_terrain_height tg ng p1.2.1 (x_pos - 1/2) y_pos
        let p3 := calculate_terrain_height tg ng p2.2.1 x_pos (y_pos + 1/2)
        let p4 := calculate_terrain_height tg ng p3.2.1 x_pos (y_pos - 1/2)
        let slope_x := (p1.1 - p2.1) / (2 * (1/2))
        let slope_y := (p3.1 - p4.1) / (2 * (1/2))
        let d := if (7/10 : ℚ)^2 < slope_x^2 + slope_y^2 then
            Decision.rejectedSlope
          else Decision.accepted
        let rest := gcfLoop tg ng R world_x_base world_y_base n p4.2.1 u2.2
        (⟨x_pos, y_pos, d⟩ :: rest.1, rest.2)

/-- `TerrainGenerator.generate_chunk_features`: skip chunks with
`sqrt(chunk_x² + chunk_y²) > view_distance - 1` (squared comparison; the skip
fires for every chunk when `view_distance < 1` since a sqrt is nonnegative);
otherwise reseed the global random generator with
`seed + chunk_x*1000 + chunk_y` and run the scatter loop
`int(chunk_size² * feature_density)` times. -/
def generate_chunk_features (tg : TGSettings) (ng : NoiseGenerator) {S : Type}
    (R : RandomModel S) (cache : HeightCache) (rng : S) (chunk_x chunk_y : ℤ) :
    List Candidate × HeightCache × S :=
  if tg.view_distance < 1 ∨
      ((tg.view_distance : ℚ) - 1)^2 < (chunk_x : ℚ)^2 + (chunk_y : ℚ)^2 then
    ([], cache, rng)
  else
    let world_x_base := (chunk_x : ℚ) * tg.chunk_size
    let world_y_base := (chunk_y : ℚ) * tg.chunk_size
    let feature_seed := tg.seed + chunk_x * 1000 + chunk_y
    let rng1 := R.seedWith feature_seed
    let expected_features :=
      (pyInt (tg.chunk_size * tg.chunk_size * tg.feature_density)).toNat
    gcfLoop tg ng R world_x_base world_y_base expected_features cache rng1

/-- Cache-independent description of the candidate list `gcfLoop` produces:
positions come from the draws alone and every height equals the pure
`terrainHeight` value (which `calculate_terrain_height` returns under any
well-formed cache).  Used to compare runs that start from different cache
states. -/
def gcfLoopPure (tg : TGSettings) (ng : NoiseGenerator) {S : Type}
    (R : RandomModel S) (world_x_base world_y_base : ℚ) :
    ℕ → S → List Candidate
  | 0, _ => []
  | n + 1, rng =>
      let u1 := R.uniform 0 tg.chunk_size rng
      let u2 := R.uniform 0 tg.chunk_size u1.2
      let x_pos := world_x_base + u1.1
      let y_pos := world_y_base + u2.1
      if terrainHeight tg ng x_pos y_pos ≤ tg.water_level then
        ⟨x_pos, y_pos, Decision.rejectedWater⟩ ::
          gcfLoopPure tg ng R world_x_base world_y_base n u2.2
      else
        let slope_x := (terrainHeight tg ng (x_pos + 1/2) y_pos
          - terrainHeight tg ng (x_pos - 1/2) y_pos) / (2 * (1/2))
        let slope_y := (terrainHeight tg ng x_pos (y_pos + 1/2)
          - terrainHeight tg ng x_pos (y_pos - 1/2)) / (2 * (1/2))
        let d := if (7/10 : ℚ)^2 < slope_x^2 + slope_y^2 then
            Decision.rejectedSlope
          else Decision.accepted
        ⟨x_pos, y_pos, d⟩ :: gcfLoopPure tg ng R world_x_base world_y_base n u2.2

/-- A concrete random model used to instantiate theorems: seeding stores the
seed, each draw returns `1/2` and advances a counter. -/
def R0 : RandomModel (ℤ × ℕ) where
  seedWith := fun n => (n, 0)
  next := fun s => (1/2, (s.1, s.2 + 1))

/-! ### Chunk building and streaming -/

/-- Height samples performed by `get_terrain_color` when colouring a mesh
segment: four slope probes at `sample_dist = 2.0` around the query point
(the resulting colour feeds only the engine mesh and carries no further
state, so only the cache effect is modelled). -/
def get_terrain_color_cache (tg : TGSettings) (ng : NoiseGenerator)
    (cache : HeightCache) (world_x world_y : ℚ) : HeightCache :=
  let p1 := calculate_terrain_height tg ng cache (world_x + 2) world_y
  let p2 := calculate_terrain_height tg ng p1.2.1 (world_x - 2) world_y
  let p3 := calculate_terrain_height tg ng p2.2.1 world_x (world_y + 2)
  let p4 := calculate_terrain_height tg ng p3.2.1 world_x (world_y - 2)
  p4.2.1

/-- Cache effect of one `(i, j)` iteration of the mesh grid loop in
`create_terrain_chunk`: sample the four corner heights; unless all corners
are deep underwater (`< water_level - 1`, in which case the cell is skipped),
`create_terrain_segment` colours the segment via `get_terrain_color` at the
cell centre with the average height. -/
def sampleCell (tg : TGSettings) (ng : NoiseGenerator) (cache : HeightCache)
    (x_pos y_pos mesh_size : ℚ) : HeightCache :=
  let b1 := calculate_terrain_height tg ng cache x_pos y_pos
  let b2 := calculate_terrain_height tg ng b1.2.1 (x_pos + mesh_size) y_pos
  let b3 := calculate_terrain_height tg ng b2.2.1 (x_pos + mesh_size) (y_pos + mesh_size)
  let b4 := calculate_terrain_height tg ng b3.2.1 x_pos (y_pos + mesh_size)
  if b1.1 < tg.water_level - 1 ∧ b2.1 < tg.water_level - 1 ∧
      b3.1 < tg.water_level - 1 ∧ b4.1 < tg.water_level - 1 then
    b4.2.1
  else
    get_terrain_color_cache tg ng b4.2.1 (x_pos + mesh_size / 2) (y_pos + mesh_size / 2)

/-- The `for i in range(mesh_segments) / for j in range(mesh_segments)` grid
of `create_terrain_chunk`, threading the height cache. -/
def meshGridCache (tg : TGSettings) (ng : NoiseGenerator) (cache : HeightCache)
    (world_x_base world_y_base mesh_size : ℚ) (mesh_segments : ℕ) : HeightCache :=
  (List.range mesh_segments).foldl (fun c i =>
    (List.range mesh_segments).foldl (fun c j =>
      sampleCell tg ng c (world_x_base + (i : ℚ) * mesh_size)
        (world_y_base + (j : ℚ) * mesh_size) mesh_size) c) cache

/-- Result of `create_terrain_chunk` on the modelled state (the returned
scene-graph node is engine-side and not modelled). -/
structure BuildResult (S : Type) where
  loaded_chunks : Finset (ℤ × ℤ)
  height_cache : HeightCache
  rng : S
  featuresInvoked : Bool

/-- `TerrainGenerator.create_terrain_chunk`: early-return when the chunk is
already resident; otherwise sample the mesh grid, register the chunk and —
when `generate_features` is on and `sqrt(chunk_x² + chunk_y²)`, the distance
of the chunk to the ORIGIN, is strictly below `view_distance - 1` (squared
comparison, false whenever `view_distance < 1`) — invoke
`generate_chunk_features`. -/
def create_terrain_chunk (tg : TGSettings) (ng : NoiseGenerator) {S : Type}
    (R : RandomModel S) (loaded : Finset (ℤ × ℤ)) (cache : HeightCache) (rng : S)
    (chunk_x chunk_y : ℤ) : BuildResult S :=
  if (chunk_x, chunk_y) ∈ loaded then ⟨loaded, cache, rng, false⟩
  else
    let world_x_base := (chunk_x : ℚ) * tg.chunk_size
    let world_y_base := (chunk_y : ℚ) * tg.chunk_size
    let mesh_segments := (pyInt (tg.chunk_size / tg.detail_mesh_size)).toNat
    let cache1 := meshGridCache tg ng cache world_x_base world_y_base
      tg.detail_mesh_size mesh_segments
    let loaded1 := insert (chunk_x, chunk_y) loaded
    if tg.generate_features = true ∧ 1 ≤ tg.view_distance ∧
        (chunk_x : ℚ)^2 + (chunk_y : ℚ)^2 < ((tg.view_distance : ℚ) - 1)^2 then
      let r := generate_chunk_features tg ng R cache1 rng chunk_x chunk_y
      ⟨loaded1, r.2.1, r.2.2, true⟩
    else ⟨loaded1, cache1, rng, false⟩

/-- Streaming state of `TerrainGenerator`: the resident-chunk key set, the
last distinct center chunk, the height memo and the global random state. -/
structure StreamState (S : Type) where
  loaded_chunks : Finset (ℤ × ℤ)
  current_center_chunk : Option (ℤ × ℤ)
  height_cache : HeightCache
  rng : S

/-- State set up by `__init__`: no chunks, no center, empty cache. -/
def initState {S : Type} (s0 : S) : StreamState S := ⟨∅, none, [], s0⟩

/-- Python `range(lo, hi)` over integers. -/
def intRange (lo hi : ℤ) : List ℤ :=
  (List.range (hi - lo).toNat).map (fun (i : ℕ) => lo + (i : ℤ))

/-- The double `range` scan in `update_visible_chunks` that fills
`visible_chunks`: all `(x, y)` in the `[center ± view_distance]` box whose
squared distance to the center is at most `view_distance²`. -/
def visibleList (center : ℤ × ℤ) (view_distance : ℤ) : List (ℤ × ℤ) :=
  (intRange (center.1 - view_distance) (center.1 + view_distance + 1)).flatMap
    (fun x =>
      ((intRange (center.2 - view_distance) (center.2 + view_distance + 1)).map
          (fun y => (x, y))).filter
        (fun c => decide ((c.1 - center.1)^2 + (c.2 - center.2)^2 ≤ view_distance^2)))

/-- The `visible_chunks` set. -/
def visibleChunks (center : ℤ × ℤ) (view_distance : ℤ) : Finset (ℤ × ℤ) :=
  (visibleList center view_distance).toFinset

/-- `dist_sq` of a chunk coordinate to the center chunk. -/
def distSq (a center : ℤ × ℤ) : ℤ := (a.1 - center.1)^2 + (a.2 - center.2)^2

/-- Python's `chunk_distances.sort()` over `(dist_sq, chunk_key)` tuples:
lexicographic order, distance first, then the key. -/
def chunkLE (center : ℤ × ℤ) (a b : ℤ × ℤ) : Bool :=
  decide (distSq a center < distSq b center ∨
    (distSq a center = distSq b center ∧
      (a.1 < b.1 ∨ (a.1 = b.1 ∧ a.2 ≤ b.2))))

/-- One step of the load loop at the end of `update_visible_chunks`: build
the chunk, thread the state, and record whether the chunk received a
`generate_chunk_features` call. -/
def loadStep (tg : TGSettings) (ng : NoiseGenerator) {S : Type} (R : RandomModel S)
    (acc : (Finset (ℤ × ℤ) × HeightCache × S) × List ((ℤ × ℤ) × Bool))
    (k : ℤ × ℤ) : (Finset (ℤ × ℤ) × HeightCache × S) × List ((ℤ × ℤ) × Bool) :=
  let b := create_terrain_chunk tg ng R acc.1.1 acc.1.2.1 acc.1.2.2 k.1 k.2
  ((b.loaded_chunks, b.height_cache, b.rng), acc.2 ++ [(k, b.featuresInvoked)])

/-- `TerrainGenerator.update_visible_chunks`: the full transition.  Returns
the new state together with the list of chunks built during the call (in
build order), each paired with whether it received features. -/
def update_visible_chunks (tg : TGSettings) (ng : NoiseGenerator) {S : Type}
    (R : RandomModel S) (s : StreamState S) (player_pos : Option (ℚ × ℚ)) :
    StreamState S × List ((ℤ × ℤ) × Bool) :=
  match player_pos with
  | none => (s, [])
  | some pos =>
      let chunk_x : ℤ := ⌊pos.1 / tg.chunk_size⌋
      let chunk_y : ℤ := ⌊pos.2 / tg.chunk_size⌋
      if s.current_center_chunk = some (chunk_x, chunk_y) then (s, [])
      else
        let visible := visibleChunks (chunk_x, chunk_y) tg.view_distance
        let chunks_to_unload := s.loaded_chunks \ visible
        let loaded1 := s.loaded_chunks \ chunks_to_unload
        let toLoad := ((visibleList (chunk_x, chunk_y) tg.view_distance).filter
          (fun k => decide (k ∉ loaded1))).mergeSort (chunkLE (chunk_x, chunk_y))
        let final := toLoad.foldl (loadStep tg ng R)
          ((loaded1, s.height_cache, s.rng), [])
        (⟨final.1.1, some (chunk_x, chunk_y), final.1.2.1, final.1.2.2⟩, final.2)

/-- One `update_visible_chunks` call with a (non-`None`) position, keeping
only the state. -/
def streamStep (tg : TGSettings) (ng : NoiseGenerator) {S : Type}
    (R : RandomModel S) (s : StreamState S) (p : ℚ × ℚ) : StreamState S :=
  (update_visible_chunks tg ng R s (some p)).1

/-- A sequence of `update_visible_chunks` calls. -/
def runUpdates (tg : TGSettings) (ng : NoiseGenerator) {S : Type}
    (R : RandomModel S) (s : StreamState S) (ps : List (ℚ × ℚ)) : StreamState S :=
  ps.foldl (streamStep tg ng R) s

/-- The feature condition the code actually implements in
`create_terrain_chunk` / `generate_chunk_features`: features are enabled and
the chunk's distance to the ORIGIN chunk `(0, 0)` is strictly below
`view_distance - 1` (squared form of `sqrt(chunk_x² + chunk_y²) <
view_distance - 1`). -/
def codeFeatureCondition (generate_features : Bool) (view_distance : ℤ)
    (chunk : ℤ × ℤ) : Prop :=
  generate_features = true ∧ 1 ≤ view_distance ∧
    (chunk.1 : ℚ)^2 + (chunk.2 : ℚ)^2 < ((view_distance : ℚ) - 1)^2

/-- The feature condition exactly as the spec sentence states it: features
are generated iff they are enabled and the chunk lies within the inner
radius `view_distance - 1` of the VISIBLE SET'S CENTER chunk (squared form
of `sqrt((x-cx)² + (y-cy)²) < view_distance - 1`). -/
def specFeatureCondition (generate_features : Bool) (view_distance : ℤ)
    (chunk center : ℤ × ℤ) : Prop :=
  generate_features = true ∧ 1 ≤ view_distance ∧
    (chunk.1 - center.1)^2 + (chunk.2 - center.2)^2 < (view_distance - 1)^2

/-! ### Bound lemmas for the noise functions -/

theorem fade_nonneg {t : ℚ} (h0 : 0 ≤ t) (_h1 : t ≤ 1) : 0 ≤ fade t := by
  unfold fade
  nlinarith [mul_nonneg (mul_nonneg h0 h0) h0,
    mul_nonneg (mul_nonneg (mul_nonneg h0 h0) h0) (sq_nonneg (t - 5/4))]

theorem fade_le_one {t : ℚ} (_h0 : 0 ≤ t) (h1 : t ≤ 1) : fade t ≤ 1 := by
  unfold fade
  have h : (0:ℚ) ≤ 1 - t := by linarith
  nlinarith [mul_nonneg (mul_nonneg h h) h,
    mul_nonneg (mul_nonneg (mul_nonneg h h) h) (sq_nonneg (t + 1/4))]

/-- Key inequality behind the noise range: for `t ∈ [0,1]`, the interpolated
corner-bound `(1 - fade t) * t + fade t * (1 - t)` never exceeds `1/2`. -/
theorem mix_le_half {t : ℚ} (h0 : 0 ≤ t) (h1 : t ≤ 1) :
    (1 - fade t) * t + fade t * (1 - t) ≤ 1 / 2 := by
  unfold fade
  have h : (0:ℚ) ≤ 1 - t := by linarith
  nlinarith [sq_nonneg ((2*t - 1) * t * (t - 1)), sq_nonneg (2*t - 1),
    mul_nonneg (mul_nonneg (sq_nonneg (2*t - 1)) h0) h]

theorem grad2_dot_abs_le (i : Fin 8) (fx fy : ℚ) :
    |((grad2 i).1 : ℚ) * fx + ((grad2 i).2 : ℚ) * fy| ≤ |fx| + |fy| := by
  fin_cases i <;>
    simp [grad2] <;>
    rw [abs_le] <;>
    constructor <;>
    linarith [le_abs_self fx, neg_abs_le fx, le_abs_self fy, neg_abs_le fy,
      abs_nonneg fx, abs_nonneg fy]

theorem NoiseGenerator.gradient_abs_le (ng : NoiseGenerator) (ix iy : ℤ) (fx fy : ℚ) :
    |ng.gradient ix iy fx fy| ≤ |fx| + |fy| :=
  grad2_dot_abs_le _ fx fy

theorem lerp_abs_le {a b t A B : ℚ} (ht0 : 0 ≤ t) (ht1 : t ≤ 1)
    (ha : |a| ≤ A) (hb : |b| ≤ B) :
    |lerp a b t| ≤ (1 - t) * A + t * B := by
  have h : lerp a b t = (1 - t) * a + t * b := by unfold lerp; ring
  rw [h]
  calc |(1 - t) * a + t * b| ≤ |(1 - t) * a| + |t * b| := abs_add _ _
    _ = (1 - t) * |a| + t * |b| := by
        rw [abs_mul, abs_mul, abs_of_nonneg (by linarith : (0:ℚ) ≤ 1 - t),
          abs_of_nonneg ht0]
    _ ≤ (1 - t) * A + t * B := by
        have := abs_nonneg a
        have := abs_nonneg b
        apply add_le_add
        · exact mul_le_mul_of_nonneg_left ha (by linarith)
        · exact mul_le_mul_of_nonneg_left hb ht0

/-- The interpolated gradient noise is bounded by the `0.707` scale factor. -/
theorem NoiseGenerator.noise2d_abs_le (ng : NoiseGenerator) (x y : ℚ) :
    |ng.noise2d x y| ≤ 707 / 1000 := by
  have hfx0 : (0:ℚ) ≤ x - ⌊x⌋ := by have := Int.floor_le x; linarith
  have hfx1 : x - (⌊x⌋ : ℚ) ≤ 1 := by have := Int.lt_floor_add_one x; linarith
  have hfy0 : (0:ℚ) ≤ y - ⌊y⌋ := by have := Int.floor_le y; linarith
  have hfy1 : y - (⌊y⌋ : ℚ) ≤ 1 := by have := Int.lt_floor_add_one y; linarith
  simp only [NoiseGenerator.noise2d]
  set fx : ℚ := x - (⌊x⌋ : ℚ) with hfx
  set fy : ℚ := y - (⌊y⌋ : ℚ) with hfy
  set ix : ℤ := ⌊x⌋ % 256 with hix
  set iy : ℤ := ⌊y⌋ % 256 with hiy
  have hu0 : 0 ≤ fade fx := fade_nonneg hfx0 hfx1
  have hu1 : fade fx ≤ 1 := fade_le_one hfx0 hfx1
  have hv0 : 0 ≤ fade fy := fade_nonneg hfy0 hfy1
  have hv1 : fade fy ≤ 1 := fade_le_one hfy0 hfy1
  have h00 : |ng.gradient ix iy fx fy| ≤ fx + fy := by
    have := ng.gradient_abs_le ix iy fx fy
    rwa [abs_of_nonneg hfx0, abs_of_nonneg hfy0] at this
  have h10 : |ng.gradient (ix + 1) iy (fx - 1) fy| ≤ (1 - fx) + fy := by
    have := ng.gradient_abs_le (ix + 1) iy (fx - 1) fy
    rwa [abs_of_nonpos (by linarith : fx - 1 ≤ 0), abs_of_nonneg hfy0, neg_sub] at this
  have h01 : |ng.gradient ix (iy + 1) fx (fy - 1)| ≤ fx + (1 - fy) := by
    have := ng.gradient_abs_le ix (iy + 1) fx (fy - 1)
    rwa [abs_of_nonneg hfx0, abs_of_nonpos (by linarith : fy - 1 ≤ 0), neg_sub] at this
  have h11 : |ng.gradient (ix + 1) (iy + 1) (fx - 1) (fy - 1)| ≤ (1 - fx) + (1 - fy) := by
    have := ng.gradient_abs_le (ix + 1) (iy + 1) (fx - 1) (fy - 1)
    rwa [abs_of_nonpos (by linarith : fx - 1 ≤ 0),
      abs_of_nonpos (by linarith : fy - 1 ≤ 0), neg_sub, neg_sub] at this
  have hx0 := lerp_abs_le hu0 hu1 h00 h10
  have hx1 := lerp_abs_le hu0 hu1 h01 h11
  have hn := lerp_abs_le hv0 hv1 hx0 hx1
  have hsplit :
      (1 - fade fy) * ((1 - fade fx) * (fx + fy) + fade fx * ((1 - fx) + fy)) +
        fade fy * ((1 - fade fx) * (fx + (1 - fy)) + fade fx * ((1 - fx) + (1 - fy))) =
      ((1 - fade fx) * fx + fade fx * (1 - fx)) +
        ((1 - fade fy) * fy + fade fy * (1 - fy)) := by ring
  have m1 := mix_le_half hfx0 hfx1
  have m2 := mix_le_half hfy0 hfy1
  have hn1 : |lerp (lerp (ng.gradient ix iy fx fy)
      (ng.gradient (ix + 1) iy (fx - 1) fy) (fade fx))
      (lerp (ng.gradient ix (iy + 1) fx (fy - 1))
        (ng.gradient (ix + 1) (iy + 1) (fx - 1) (fy - 1)) (fade fx)) (fade fy)| ≤ 1 := by
    calc _ ≤ _ := hn
      _ = _ := hsplit
      _ ≤ 1 / 2 + 1 / 2 := add_le_add m1 m2
      _ = 1 := by norm_num
  rw [abs_mul]
  calc |lerp _ _ (fade fy)| * |(707 / 1000 : ℚ)| ≤ 1 * |(707 / 1000 : ℚ)| :=
        mul_le_mul_of_nonneg_right hn1 (abs_nonneg _)
    _ = 707 / 1000 := by norm_num

theorem fbmLoop_bound (ng : NoiseGenerator) (x y persistence lacunarity : ℚ)
    (hp : 0 ≤ persistence) (n : ℕ) :
    ∀ (total frequency amplitude max_value : ℚ),
      |total| ≤ max_value → 0 ≤ amplitude →
      |(fbmLoop ng x y persistence lacunarity n total frequency amplitude max_value).1|
        ≤ (fbmLoop ng x y persistence lacunarity n total frequency amplitude max_value).2 ∧
      max_value ≤ (fbmLoop ng x y persistence lacunarity n total frequency amplitude max_value).2 := by
  induction n with
  | zero => exact fun total frequency amplitude max_value ht _ => ⟨ht, le_rfl⟩
  | succ k ih =>
    intro total frequency amplitude max_value ht ha
    simp only [fbmLoop]
    have hnoise : |ng.noise2d (x * frequency) (y * frequency)| ≤ 1 :=
      le_trans (ng.noise2d_abs_le (x * frequency) (y * frequency)) (by norm_num)
    have habs : |total + ng.noise2d (x * frequency) (y * frequency) * amplitude|
        ≤ max_value + amplitude := by
      calc |total + ng.noise2d (x * frequency) (y * frequency) * amplitude|
          ≤ |total| + |ng.noise2d (x * frequency) (y * frequency) * amplitude| := abs_add _ _
        _ = |total| + |ng.noise2d (x * frequency) (y * frequency)| * amplitude := by
            rw [abs_mul, abs_of_nonneg ha]
        _ ≤ max_value + 1 * amplitude :=
            add_le_add ht (mul_le_mul_of_nonneg_right hnoise ha)
        _ = max_value + amplitude := by ring
    have hrec := ih _ (frequency * lacunarity) _ _ habs (mul_nonneg ha hp)
    exact ⟨hrec.1, le_trans (by linarith) hrec.2⟩

theorem NoiseGenerator.fbm_abs_le (ng : NoiseGenerator) (x y : ℚ) (octaves : ℤ)
    (persistence lacunarity : ℚ) (ho : 1 ≤ octaves) (hp : 0 ≤ persistence) :
    |ng.fbm x y octaves persistence lacunarity| ≤ 1 := by
  obtain ⟨k, hk⟩ : ∃ k : ℕ, octaves.toNat = k + 1 := ⟨octaves.toNat - 1, by omega⟩
  simp only [NoiseGenerator.fbm, hk, fbmLoop]
  have h1 : |(0:ℚ) + ng.noise2d (x * 1) (y * 1) * 1| ≤ (0:ℚ) + 1 := by
    have := ng.noise2d_abs_le (x * 1) (y * 1)
    rw [zero_add, mul_one, zero_add]
    linarith
  have hb := fbmLoop_bound ng x y persistence lacunarity hp k _ (1 * lacunarity) _ _
    h1 (by linarith : (0:ℚ) ≤ 1 * persistence)
  set r := fbmLoop ng x y persistence lacunarity k
    (0 + ng.noise2d (x * 1) (y * 1) * 1) (1 * lacunarity) (1 * persistence) (0 + 1) with hr
  have hm : (1:ℚ) ≤ r.2 := by
    have := hb.2
    linarith
  have hmax : max r.2 (1 / 1000000 : ℚ) = r.2 := max_eq_left (by linarith)
  rw [hmax, abs_div, abs_of_pos (by linarith : (0:ℚ) < r.2)]
  rw [div_le_one (by linarith : (0:ℚ) < r.2)]
  linarith [hb.1]

/-! ### Claim C3 -/

/-- C3: for every seed (i.e. every permutation table) and all inputs `x, y`,
`NoiseGenerator.noise2d x y` lies in `[-1, 1]`; consequently, for every
`octaves` in `[1, 8]`, `fbm x y octaves 0.5 2.0` also lies in `[-1, 1]`. -/
theorem noise2d_and_fbm_range (ng : NoiseGenerator) (x y : ℚ) :
    (-1 ≤ ng.noise2d x y ∧ ng.noise2d x y ≤ 1) ∧
    ∀ octaves : ℤ, 1 ≤ octaves → octaves ≤ 8 →
      -1 ≤ ng.fbm x y octaves (1/2) 2 ∧ ng.fbm x y octaves (1/2) 2 ≤ 1 := by
  constructor
  · exact abs_le.mp (le_trans (ng.noise2d_abs_le x y) (by norm_num))
  · intro octaves ho _
    exact abs_le.mp (ng.fbm_abs_le x y octaves (1/2) 2 ho (by norm_num))

/-- Witness for C3 at the identity permutation, `(x, y) = (5/2, -7/3)`,
`octaves = 4`. -/
theorem noise2d_and_fbm_range_witness :
    (-1 ≤ ng0.noise2d (5/2) (-7/3) ∧ ng0.noise2d (5/2) (-7/3) ≤ 1) ∧
    (-1 ≤ ng0.fbm (5/2) (-7/3) 4 (1/2) 2 ∧ ng0.fbm (5/2) (-7/3) 4 (1/2) 2 ≤ 1) :=
  ⟨(noise2d_and_fbm_range ng0 (5/2) (-7/3)).1,
   (noise2d_and_fbm_range ng0 (5/2) (-7/3)).2 4 (by norm_num) (by norm_num)⟩

/-! ### Claim C8 -/

/-- C8: `fbm` with `octaves ≤ 0` returns exactly `0` (empty octave sum), and
for all argument values the normalizing denominator `max(max_value, 1e-6)`
is positive, so the final division can never be a division by zero. -/
theorem fbm_nonpos_octaves_zero (ng : NoiseGenerator) (x y : ℚ) (octaves : ℤ)
    (persistence lacunarity : ℚ) :
    (octaves ≤ 0 → ng.fbm x y octaves persistence lacunarity = 0) ∧
    0 < max (fbmLoop ng x y persistence lacunarity octaves.toNat 0 1 1 0).2
        (1/1000000) := by
  constructor
  · intro h
    have h0 : octaves.toNat = 0 := by omega
    simp [NoiseGenerator.fbm, h0, fbmLoop]
  · exact lt_max_of_lt_right (by norm_num)

/-- Witness for C8 at the identity permutation, `octaves = -2`. -/
theorem fbm_nonpos_octaves_zero_witness :
    ng0.fbm 3 7 (-2) (1/2) 2 = 0 ∧
    0 < max (fbmLoop ng0 3 7 (1/2) 2 ((-2 : ℤ)).toNat 0 1 1 0).2 (1/1000000) :=
  ⟨(fbm_nonpos_octaves_zero ng0 3 7 (-2) (1/2) 2).1 (by norm_num),
   (fbm_nonpos_octaves_zero ng0 3 7 (-2) (1/2) 2).2⟩

/-! ### Cache lemmas, Claim C7 and Claim C9 -/

theorem lookup_cons (k k' : ℚ × ℚ) (v : ℚ) (c : List ((ℚ × ℚ) × ℚ)) :
    List.lookup k' ((k, v) :: c) = if k' = k then some v else List.lookup k' c := by
  by_cases h : k' = k
  · simp [List.lookup, h]
  · have hb : (k' == k) = false := beq_eq_false_iff_ne.mpr h
    simp [List.lookup, hb, h]

/-- C7: `calculate_terrain_height` is memoized: a call whose key is cached
returns the cached value, leaves the cache unchanged (an entry is never
overwritten or recomputed) and performs zero noise evaluations; and for any
starting cache, a repeated call with the same coordinates returns the same
value as the first call, leaves the cache exactly as the first call left it,
and performs zero noise evaluations. -/
theorem calculate_terrain_height_memoized (tg : TGSettings) (ng : NoiseGenerator)
    (cache : HeightCache) (x y : ℚ) :
    (∀ v, cache.lookup (x, y) = some v →
      calculate_terrain_height tg ng cache x y = (v, cache, 0)) ∧
    calculate_terrain_height tg ng
        (calculate_terrain_height tg ng cache x y).2.1 x y
      = ((calculate_terrain_height tg ng cache x y).1,
         (calculate_terrain_height tg ng cache x y).2.1, 0) := by
  constructor
  · intro v hv
    simp [calculate_terrain_height, hv]
  · rcases h : cache.lookup (x, y) with _ | v
    · simp [calculate_terrain_height, h, lookup_cons]
    · simp [calculate_terrain_height, h]

/-- Witness for C7: a cache holding `((1, 2) ↦ 42)` is hit and untouched,
and a recomputation after a fresh first call is a pure cache hit. -/
theorem calculate_terrain_height_memoized_witness :
    calculate_terrain_height tg0 ng0 [((1, 2), 42)] 1 2 = (42, [((1, 2), 42)], 0) ∧
    calculate_terrain_height tg0 ng0
        (calculate_terrain_height tg0 ng0 [] 1 2).2.1 1 2
      = ((calculate_terrain_height tg0 ng0 [] 1 2).1,
         (calculate_terrain_height tg0 ng0 [] 1 2).2.1, 0) :=
  ⟨(calculate_terrain_height_memoized tg0 ng0 [((1, 2), 42)] 1 2).1 42 rfl,
   (calculate_terrain_height_memoized tg0 ng0 [] 1 2).2⟩

/-- C9 counterexample: constructing with `chunk_size = -5` and
`view_distance = 0` does not fail with a configuration error — it produces a
generator, keeping the negative `chunk_size` and force-setting
`view_distance` to 3. -/
theorem mkTerrainGenerator_invalid_accepted :
    (mkTerrainGenerator { chunk_size := some (-5), view_distance := some 0 } 0).toOption.map
      (fun s => (s.chunk_size, s.view_distance)) = some (-5, 3) := rfl

/-- C9 (amended): construction performs no validation and never rejects a
configuration: it always succeeds, stores `chunk_size` exactly as configured
(default 16, negative values included), and unconditionally overrides
`view_distance` to 3 (so a configured `view_distance ≤ 0` is silently
replaced rather than rejected). -/
theorem mkTerrainGenerator_never_rejects (cfg : TerrainConfig) (randomSeed : ℤ) :
    (mkTerrainGenerator cfg randomSeed).isOk = true ∧
    (mkTerrainGenerator cfg randomSeed).toOption.map TGSettings.chunk_size
      = some (cfg.chunk_size.getD 16) ∧
    (mkTerrainGenerator cfg randomSeed).toOption.map TGSettings.view_distance
      = some 3 :=
  ⟨rfl, rfl, rfl⟩

/-! ### Well-formed caches and Claim C4 -/

theorem calc_height_val (tg : TGSettings) (ng : NoiseGenerator)
    (cache : HeightCache) (x y : ℚ) (h : WFCache tg ng cache) :
    (calculate_terrain_height tg ng cache x y).1 = terrainHeight tg ng x y := by
  rcases hl : cache.lookup (x, y) with _ | v
  · simp [calculate_terrain_height, hl]
  · simp only [calculate_terrain_height, hl]
    exact h x y v hl

theorem calc_height_wf (tg : TGSettings) (ng : NoiseGenerator)
    (cache : HeightCache) (x y : ℚ) (h : WFCache tg ng cache) :
    WFCache tg ng (calculate_terrain_height tg ng cache x y).2.1 := by
  rcases hl : cache.lookup (x, y) with _ | v
  · simp only [calculate_terrain_height, hl]
    intro a b w hw
    rw [lookup_cons] at hw
    split at hw
    · rename_i heq
      rw [Prod.mk.injEq] at heq
      obtain ⟨rfl, rfl⟩ := heq
      exact (Option.some.inj hw).symm
    · exact h a b w hw
  · simpa only [calculate_terrain_height, hl] using h

theorem gcfLoop_eq_pure (tg : TGSettings) (ng : NoiseGenerator) {S : Type}
    (R : RandomModel S) (wxb wyb : ℚ) (n : ℕ) :
    ∀ (cache : HeightCache) (rng : S), WFCache tg ng cache →
      (gcfLoop tg ng R wxb wyb n cache rng).1 = gcfLoopPure tg ng R wxb wyb n rng := by
  induction n with
  | zero => intro cache rng _; rfl
  | succ k ih =>
    intro cache rng hc
    simp only [gcfLoop, gcfLoopPure]
    set u1 := R.uniform 0 tg.chunk_size rng with hu1
    set u2 := R.uniform 0 tg.chunk_size u1.2 with hu2
    set xp := wxb + u1.1 with hxp
    set yp := wyb + u2.1 with hyp
    have wf0 := calc_height_wf tg ng cache xp yp hc
    rw [calc_height_val tg ng cache xp yp hc]
    by_cases hw : terrainHeight tg ng xp yp ≤ tg.water_level
    · rw [if_pos hw, if_pos hw]
      dsimp only
      exact congrArg _ (ih _ u2.2 wf0)
    · rw [if_neg hw, if_neg hw]
      have wf1 := calc_height_wf tg ng _ (xp + 1/2) yp wf0
      have wf2 := calc_height_wf tg ng _ (xp - 1/2) yp wf1
      have wf3 := calc_height_wf tg ng _ xp (yp + 1/2) wf2
      have wf4 := calc_height_wf tg ng _ xp (yp - 1/2) wf3
      rw [calc_height_val tg ng _ (xp + 1/2) yp wf0,
        calc_height_val tg ng _ (xp - 1/2) yp wf1,
        calc_height_val tg ng _ xp (yp + 1/2) wf2,
        calc_height_val tg ng _ xp (yp - 1/2) wf3]
      dsimp only
      by_cases hs : (7/10 : ℚ)^2 <
          ((terrainHeight tg ng (xp + 1/2) yp - terrainHeight tg ng (xp - 1/2) yp)
            / (2 * (1/2)))^2 +
          ((terrainHeight tg ng xp (yp + 1/2) - terrainHeight tg ng xp (yp - 1/2))
            / (2 * (1/2)))^2
      · simp only [if_pos hs]
        exact congrArg (List.cons _) (ih _ u2.2 wf4)
      · simp only [if_neg hs]
        exact congrArg (List.cons _) (ih _ u2.2 wf4)

/-- C4: `generate_chunk_features` for a fixed chunk coordinate produces the
identical candidate-position and accept/reject sequence on every invocation,
regardless of the random-generator state before the call (the call reseeds
with `seed + chunk_x*1000 + chunk_y`) and of the (well-formed) height-cache
state at the time. -/
theorem generate_chunk_features_reproducible (tg : TGSettings)
    (ng : NoiseGenerator) {S : Type} (R : RandomModel S)
    (c1 c2 : HeightCache) (r1 r2 : S) (chunk_x chunk_y : ℤ)
    (h1 : WFCache tg ng c1) (h2 : WFCache tg ng c2) :
    (generate_chunk_features tg ng R c1 r1 chunk_x chunk_y).1
      = (generate_chunk_features tg ng R c2 r2 chunk_x chunk_y).1 := by
  unfold generate_chunk_features
  split_ifs
  · rfl
  · dsimp only
    rw [gcfLoop_eq_pure tg ng R _ _ _ c1 _ h1, gcfLoop_eq_pure tg ng R _ _ _ c2 _ h2]

/-- Witness for C4: chunk `(0, 0)` scattered from two different prior
random states and cache states yields the same candidate list. -/
theorem generate_chunk_features_reproducible_witness :
    (generate_chunk_features tg0 ng0 R0 [] ((5, 9) : ℤ × ℕ) 0 0).1
      = (generate_chunk_features tg0 ng0 R0 [((1, 2), terrainHeight tg0 ng0 1 2)]
          ((11, 2) : ℤ × ℕ) 0 0).1 :=
  generate_chunk_features_reproducible tg0 ng0 R0
    [] [((1, 2), terrainHeight tg0 ng0 1 2)] (5, 9) (11, 2) 0 0
    (by intro x y v h; simp [List.lookup] at h)
    (by
      intro x y v h
      rw [lookup_cons] at h
      split at h
      · rename_i heq
        rw [Prod.mk.injEq] at heq
        obtain ⟨rfl, rfl⟩ := heq
        exact (Option.some.inj h).symm
      · simp [List.lookup] at h)

/-! ### Streaming lemmas -/

theorem create_terrain_chunk_loaded (tg : TGSettings) (ng : NoiseGenerator)
    {S : Type} (R : RandomModel S) (loaded : Finset (ℤ × ℤ))
    (cache : HeightCache) (rng : S) (cx cy : ℤ) :
    (create_terrain_chunk tg ng R loaded cache rng cx cy).loaded_chunks
      = insert (cx, cy) loaded := by
  unfold create_terrain_chunk
  split_ifs with h1 h2
  · exact (Finset.insert_eq_self.mpr h1).symm
  · rfl
  · rfl

theorem create_terrain_chunk_flag (tg : TGSettings) (ng : NoiseGenerator)
    {S : Type} (R : RandomModel S) (loaded : Finset (ℤ × ℤ))
    (cache : HeightCache) (rng : S) (cx cy : ℤ) (h : (cx, cy) ∉ loaded) :
    ((create_terrain_chunk tg ng R loaded cache rng cx cy).featuresInvoked = true
      ↔ codeFeatureCondition tg.generate_features tg.view_distance (cx, cy)) := by
  unfold create_terrain_chunk codeFeatureCondition
  rw [if_neg h]
  split_ifs with hc
  · simpa using hc
  · simpa using hc

theorem loadStep_loaded (tg : TGSettings) (ng : NoiseGenerator) {S : Type}
    (R : RandomModel S)
    (acc : (Finset (ℤ × ℤ) × HeightCache × S) × List ((ℤ × ℤ) × Bool))
    (k : ℤ × ℤ) :
    (loadStep tg ng R acc k).1.1 = insert k acc.1.1 := by
  unfold loadStep
  dsimp only
  rw [create_terrain_chunk_loaded]

theorem loadFold_loaded (tg : TGSettings) (ng : NoiseGenerator) {S : Type}
    (R : RandomModel S) (l : List (ℤ × ℤ)) :
    ∀ acc : (Finset (ℤ × ℤ) × HeightCache × S) × List ((ℤ × ℤ) × Bool),
      (l.foldl (loadStep tg ng R) acc).1.1 = acc.1.1 ∪ l.toFinset := by
  induction l with
  | nil => intro acc; simp
  | cons k t ih =>
    intro acc
    rw [List.foldl_cons, ih, loadStep_loaded]
    ext q
    simp only [Finset.mem_union, Finset.mem_insert, List.toFinset_cons,
      List.mem_toFinset]
    tauto

theorem loadFold_keys (tg : TGSettings) (ng : NoiseGenerator) {S : Type}
    (R : RandomModel S) (l : List (ℤ × ℤ)) :
    ∀ acc : (Finset (ℤ × ℤ) × HeightCache × S) × List ((ℤ × ℤ) × Bool),
      ((l.foldl (loadStep tg ng R) acc).2).map Prod.fst
        = acc.2.map Prod.fst ++ l := by
  induction l with
  | nil => intro acc; simp
  | cons k t ih =>
    intro acc
    rw [List.foldl_cons, ih]
    unfold loadStep
    simp

theorem loadFold_flags (tg : TGSettings) (ng : NoiseGenerator) {S : Type}
    (R : RandomModel S) (l : List (ℤ × ℤ)) :
    ∀ acc : (Finset (ℤ × ℤ) × HeightCache × S) × List ((ℤ × ℤ) × Bool),
      l.Nodup → (∀ k ∈ l, k ∉ acc.1.1) →
      (∀ kf ∈ acc.2,
        (kf.2 = true ↔ codeFeatureCondition tg.generate_features tg.view_distance kf.1)) →
      ∀ kf ∈ (l.foldl (loadStep tg ng R) acc).2,
        (kf.2 = true ↔ codeFeatureCondition tg.generate_features tg.view_distance kf.1) := by
  induction l with
  | nil => intro acc _ _ hacc; exact hacc
  | cons k t ih =>
    intro acc hnd hfresh hacc
    rw [List.foldl_cons]
    have hk : k ∉ acc.1.1 := hfresh k (List.mem_cons_self k t)
    apply ih
    · exact hnd.of_cons
    · intro k' hk'
      rw [loadStep_loaded]
      simp only [Finset.mem_insert, not_or]
      refine ⟨?_, hfresh k' (List.mem_cons_of_mem k hk')⟩
      intro hkk
      exact (List.nodup_cons.mp hnd).1 (hkk ▸ hk')
    · intro kf hkf
      unfold loadStep at hkf
      dsimp only at hkf
      rcases List.mem_append.mp hkf with hmem | hmem
      · exact hacc kf hmem
      · rcases List.mem_singleton.mp hmem with rfl
        exact create_terrain_chunk_flag tg ng R acc.1.1 acc.1.2.1 acc.1.2.2 k.1 k.2 hk

theorem mem_intRange (lo hi a : ℤ) : a ∈ intRange lo hi ↔ lo ≤ a ∧ a < hi := by
  unfold intRange
  simp only [List.mem_map, List.mem_range]
  constructor
  · rintro ⟨i, hi', rfl⟩
    omega
  · intro h
    exact ⟨(a - lo).toNat, by omega, by omega⟩

theorem intRange_nodup (lo hi : ℤ) : (intRange lo hi).Nodup := by
  unfold intRange
  exact List.Nodup.map (fun a b h => by omega) (List.nodup_range _)

theorem mem_visibleList (center : ℤ × ℤ) (vd : ℤ) (q : ℤ × ℤ) :
    q ∈ visibleList center vd ↔
      (center.1 - vd ≤ q.1 ∧ q.1 < center.1 + vd + 1) ∧
      (center.2 - vd ≤ q.2 ∧ q.2 < center.2 + vd + 1) ∧
      (q.1 - center.1)^2 + (q.2 - center.2)^2 ≤ vd^2 := by
  unfold visibleList
  simp only [List.mem_flatMap, List.mem_filter, List.mem_map, mem_intRange,
    decide_eq_true_eq]
  constructor
  · rintro ⟨x, hx, ⟨y, hy, rfl⟩, hcond⟩
    exact ⟨hx, hy, hcond⟩
  · rintro ⟨h1, h2, h3⟩
    exact ⟨q.1, h1, ⟨⟨q.2, h2, rfl⟩, h3⟩⟩

theorem visibleList_nodup (center : ℤ × ℤ) (vd : ℤ) :
    (visibleList center vd).Nodup := by
  unfold visibleList
  rw [List.nodup_flatMap]
  constructor
  · intro x _
    exact ((intRange_nodup _ _).map (fun a b h => by
      rwa [Prod.mk.injEq, and_iff_right rfl] at h)).filter _
  · refine (intRange_nodup _ _).imp ?_
    intro x1 x2 hne q hq1 hq2
    rw [List.mem_filter] at hq1 hq2
    rcases List.mem_map.mp hq1.1 with ⟨y1, _, rfl⟩
    rcases List.mem_map.mp hq2.1 with ⟨y2, hy2, heq⟩
    rw [Prod.mk.injEq] at heq
    exact hne heq.1.symm

theorem mem_visibleChunks {center : ℤ × ℤ} {vd : ℤ} (hvd : 0 ≤ vd) (q : ℤ × ℤ) :
    q ∈ visibleChunks center vd ↔ distSq q center ≤ vd^2 := by
  rw [visibleChunks, List.mem_toFinset, mem_visibleList, distSq]
  constructor
  · rintro ⟨_, _, h⟩
    exact h
  · intro h
    have hx : (q.1 - center.1)^2 ≤ vd^2 := by nlinarith [sq_nonneg (q.2 - center.2)]
    have hy : (q.2 - center.2)^2 ≤ vd^2 := by nlinarith [sq_nonneg (q.1 - center.1)]
    have hx1 : -vd ≤ q.1 - center.1 := by nlinarith [sq_nonneg (q.1 - center.1 + vd)]
    have hx2 : q.1 - center.1 ≤ vd := by nlinarith [sq_nonneg (q.1 - center.1 - vd)]
    have hy1 : -vd ≤ q.2 - center.2 := by nlinarith [sq_nonneg (q.2 - center.2 + vd)]
    have hy2 : q.2 - center.2 ≤ vd := by nlinarith [sq_nonneg (q.2 - center.2 - vd)]
    exact ⟨⟨by omega, by omega⟩, ⟨by omega, by omega⟩, h⟩

theorem chunkLE_trans (c a b d : ℤ × ℤ) :
    chunkLE c a b = true → chunkLE c b d = true → chunkLE c a d = true := by
  simp only [chunkLE, decide_eq_true_eq]
  intro h1 h2
  rcases a with ⟨a1, a2⟩
  rcases b with ⟨b1, b2⟩
  rcases d with ⟨d1, d2⟩
  dsimp only at h1 h2 ⊢
  generalize distSq (a1, a2) c = da at *
  generalize distSq (b1, b2) c = db at *
  generalize distSq (d1, d2) c = dd at *
  omega

theorem chunkLE_total (c a b : ℤ × ℤ) :
    (chunkLE c a b || chunkLE c b a) = true := by
  simp only [chunkLE, Bool.or_eq_true, decide_eq_true_eq]
  rcases a with ⟨a1, a2⟩
  rcases b with ⟨b1, b2⟩
  dsimp only
  generalize distSq (a1, a2) c = da
  generalize distSq (b1, b2) c = db
  omega

theorem chunkLE_dist (c a b : ℤ × ℤ) (h : chunkLE c a b = true) :
    distSq a c ≤ distSq b c := by
  simp only [chunkLE, decide_eq_true_eq] at h
  omega

theorem streamStep_center (tg : TGSettings) (ng : NoiseGenerator) {S : Type}
    (R : RandomModel S) (s : StreamState S) (p : ℚ × ℚ) :
    (streamStep tg ng R s p).current_center_chunk
      = some (⌊p.1 / tg.chunk_size⌋, ⌊p.2 / tg.chunk_size⌋) := by
  unfold streamStep update_visible_chunks
  dsimp only
  split_ifs with h
  · exact h
  · rfl

theorem streamStep_loaded (tg : TGSettings) (ng : NoiseGenerator) {S : Type}
    (R : RandomModel S) (s : StreamState S) (p : ℚ × ℚ)
    (h : s.current_center_chunk ≠ some (⌊p.1 / tg.chunk_size⌋, ⌊p.2 / tg.chunk_size⌋)) :
    (streamStep tg ng R s p).loaded_chunks
      = visibleChunks (⌊p.1 / tg.chunk_size⌋, ⌊p.2 / tg.chunk_size⌋)
          tg.view_distance := by
  unfold streamStep update_visible_chunks
  dsimp only
  rw [if_neg h]
  dsimp only
  rw [loadFold_loaded]
  have hperm := List.mergeSort_perm
    ((visibleList (⌊p.1 / tg.chunk_size⌋, ⌊p.2 / tg.chunk_size⌋) tg.view_distance).filter
      (fun k => decide (k ∉ s.loaded_chunks \ (s.loaded_chunks \
        visibleChunks (⌊p.1 / tg.chunk_size⌋, ⌊p.2 / tg.chunk_size⌋) tg.view_distance))))
    (chunkLE (⌊p.1 / tg.chunk_size⌋, ⌊p.2 / tg.chunk_size⌋))
  ext q
  rw [Finset.mem_union, List.mem_toFinset, hperm.mem_iff, List.mem_filter,
    decide_eq_true_eq]
  simp only [visibleChunks, Finset.sdiff_sdiff_self_left, Finset.mem_inter,
    List.mem_toFinset]
  tauto

/-! ### Claim C1 -/

/-- C1: for every sequence of `update_visible_chunks` calls with non-`None`
positions starting from a freshly constructed generator, after each call the
resident chunk set equals exactly the circular visible set of the latest
center chunk `(⌊x/chunk_size⌋, ⌊y/chunk_size⌋)`: a chunk is resident iff its
squared distance to that center is at most `view_distance²`. -/
theorem update_streaming_consistency (tg : TGSettings) (ng : NoiseGenerator)
    {S : Type} (R : RandomModel S) (s0 : S)
    (hvd : 0 ≤ tg.view_distance) (hcs : 0 < tg.chunk_size)
    (ps : List (ℚ × ℚ)) (p : ℚ × ℚ) :
    (runUpdates tg ng R (initState s0) (ps ++ [p])).current_center_chunk
      = some (⌊p.1 / tg.chunk_size⌋, ⌊p.2 / tg.chunk_size⌋) ∧
    ∀ q : ℤ × ℤ,
      q ∈ (runUpdates tg ng R (initState s0) (ps ++ [p])).loaded_chunks
        ↔ distSq q (⌊p.1 / tg.chunk_size⌋, ⌊p.2 / tg.chunk_size⌋)
            ≤ tg.view_distance^2 := by
  have hstep_good : ∀ (s : StreamState S) (p' : ℚ × ℚ),
      (∀ c, s.current_center_chunk = some c →
        s.loaded_chunks = visibleChunks c tg.view_distance) →
      ∀ c, (streamStep tg ng R s p').current_center_chunk = some c →
        (streamStep tg ng R s p').loaded_chunks = visibleChunks c tg.view_distance := by
    intro s p' hs c hc
    by_cases h : s.current_center_chunk
        = some (⌊p'.1 / tg.chunk_size⌋, ⌊p'.2 / tg.chunk_size⌋)
    · have hss : streamStep tg ng R s p' = s := by
        unfold streamStep update_visible_chunks
        dsimp only
        rw [if_pos h]
      rw [hss] at hc ⊢
      exact hs c hc
    · rw [streamStep_center] at hc
      obtain rfl := Option.some.inj hc
      exact streamStep_loaded tg ng R s p' h
  have hgood : ∀ (l : List (ℚ × ℚ)) (s : StreamState S),
      (∀ c, s.current_center_chunk = some c →
        s.loaded_chunks = visibleChunks c tg.view_distance) →
      ∀ c, (runUpdates tg ng R s l).current_center_chunk = some c →
        (runUpdates tg ng R s l).loaded_chunks = visibleChunks c tg.view_distance := by
    intro l
    induction l with
    | nil => intro s hs; exact hs
    | cons p' t ih => intro s hs; exact ih _ (hstep_good s p' hs)
  have hrun : runUpdates tg ng R (initState s0) (ps ++ [p])
      = streamStep tg ng R (runUpdates tg ng R (initState s0) ps) p := by
    unfold runUpdates
    rw [List.foldl_append]
    rfl
  have hcenter : (runUpdates tg ng R (initState s0) (ps ++ [p])).current_center_chunk
      = some (⌊p.1 / tg.chunk_size⌋, ⌊p.2 / tg.chunk_size⌋) := by
    rw [hrun]
    exact streamStep_center tg ng R _ p
  refine ⟨hcenter, ?_⟩
  intro q
  have hload := hgood (ps ++ [p]) (initState s0)
    (by intro c hc; exact absurd hc (by simp [initState])) _ hcenter
  rw [hload]
  exact mem_visibleChunks hvd q

/-- Witness for C1: default settings, one call at the origin. -/
theorem update_streaming_consistency_witness :
    (runUpdates tg0 ng0 R0 (initState ((0, 0) : ℤ × ℕ)) ([] ++ [(0, 0)])).current_center_chunk
      = some (⌊(0:ℚ) / tg0.chunk_size⌋, ⌊(0:ℚ) / tg0.chunk_size⌋) ∧
    ∀ q : ℤ × ℤ,
      q ∈ (runUpdates tg0 ng0 R0 (initState ((0, 0) : ℤ × ℕ)) ([] ++ [(0, 0)])).loaded_chunks
        ↔ distSq q (⌊(0:ℚ) / tg0.chunk_size⌋, ⌊(0:ℚ) / tg0.chunk_size⌋)
            ≤ tg0.view_distance^2 :=
  update_streaming_consistency tg0 ng0 R0 ((0, 0) : ℤ × ℕ)
    (by decide) (by decide) [] ((0 : ℚ), (0 : ℚ))

/-! ### Claim C2 -/

/-- C2: within a single `update_visible_chunks` call that changes the center
chunk, the chunks are built in ascending order of squared distance to the
new center: any chunk built earlier in the call has squared distance less
than or equal to that of any chunk built later. -/
theorem update_builds_closest_first (tg : TGSettings) (ng : NoiseGenerator)
    {S : Type} (R : RandomModel S) (s : StreamState S) (p : ℚ × ℚ)
    (hcs : 0 < tg.chunk_size)
    (h : s.current_center_chunk ≠ some (⌊p.1 / tg.chunk_size⌋, ⌊p.2 / tg.chunk_size⌋)) :
    List.Pairwise
      (fun a b => distSq a.1 (⌊p.1 / tg.chunk_size⌋, ⌊p.2 / tg.chunk_size⌋)
        ≤ distSq b.1 (⌊p.1 / tg.chunk_size⌋, ⌊p.2 / tg.chunk_size⌋))
      (update_visible_chunks tg ng R s (some p)).2 := by
  unfold update_visible_chunks
  dsimp only
  rw [if_neg h]
  dsimp only
  have hsorted := List.sorted_mergeSort
    (chunkLE_trans (⌊p.1 / tg.chunk_size⌋, ⌊p.2 / tg.chunk_size⌋))
    (chunkLE_total (⌊p.1 / tg.chunk_size⌋, ⌊p.2 / tg.chunk_size⌋))
    ((visibleList (⌊p.1 / tg.chunk_size⌋, ⌊p.2 / tg.chunk_size⌋) tg.view_distance).filter
      (fun k => decide (k ∉ s.loaded_chunks \ (s.loaded_chunks \
        visibleChunks (⌊p.1 / tg.chunk_size⌋, ⌊p.2 / tg.chunk_size⌋) tg.view_distance))))
  have hP : List.Pairwise
      (fun x y => distSq x (⌊p.1 / tg.chunk_size⌋, ⌊p.2 / tg.chunk_size⌋)
        ≤ distSq y (⌊p.1 / tg.chunk_size⌋, ⌊p.2 / tg.chunk_size⌋))
      (((((visibleList (⌊p.1 / tg.chunk_size⌋, ⌊p.2 / tg.chunk_size⌋) tg.view_distance).filter
          (fun k => decide (k ∉ s.loaded_chunks \ (s.loaded_chunks \
            visibleChunks (⌊p.1 / tg.chunk_size⌋, ⌊p.2 / tg.chunk_size⌋) tg.view_distance)))).mergeSort
              (chunkLE (⌊p.1 / tg.chunk_size⌋, ⌊p.2 / tg.chunk_size⌋))).foldl
        (loadStep tg ng R)
        ((s.loaded_chunks \ (s.loaded_chunks \
            visibleChunks (⌊p.1 / tg.chunk_size⌋, ⌊p.2 / tg.chunk_size⌋) tg.view_distance),
          s.height_cache, s.rng), [])).2.map Prod.fst) := by
    rw [loadFold_keys]
    simp only [List.map_nil, List.nil_append]
    exact hsorted.imp (chunkLE_dist _ _ _)
  exact (@List.pairwise_map _ _ Prod.fst
    (fun x y => distSq x (⌊p.1 / tg.chunk_size⌋, ⌊p.2 / tg.chunk_size⌋)
      ≤ distSq y (⌊p.1 / tg.chunk_size⌋, ⌊p.2 / tg.chunk_size⌋)) _).mp hP

/-- Witness for C2: default settings, first call from the initial state. -/
theorem update_builds_closest_first_witness :
    List.Pairwise
      (fun a b => distSq a.1 (⌊(0:ℚ) / tg0.chunk_size⌋, ⌊(0:ℚ) / tg0.chunk_size⌋)
        ≤ distSq b.1 (⌊(0:ℚ) / tg0.chunk_size⌋, ⌊(0:ℚ) / tg0.chunk_size⌋))
      (update_visible_chunks tg0 ng0 R0 (initState ((0, 0) : ℤ × ℕ))
        (some ((0 : ℚ), (0 : ℚ)))).2 :=
  update_builds_closest_first tg0 ng0 R0 (initState ((0, 0) : ℤ × ℕ))
    ((0 : ℚ), (0 : ℚ)) (by decide) (by decide)

/-! ### Claim C6 -/

/-- C6: a call whose position maps to the current center chunk is a complete
no-op: nothing is built (empty build list), nothing is evicted, and
`loaded_chunks`, `current_center_chunk`, `height_cache` and the random state
are all returned unchanged. -/
theorem update_same_center_noop (tg : TGSettings) (ng : NoiseGenerator)
    {S : Type} (R : RandomModel S) (s : StreamState S) (p : ℚ × ℚ)
    (h : s.current_center_chunk = some (⌊p.1 / tg.chunk_size⌋, ⌊p.2 / tg.chunk_size⌋)) :
    update_visible_chunks tg ng R s (some p) = (s, []) := by
  unfold update_visible_chunks
  dsimp only
  rw [if_pos h]

/-- Witness for C6: center `(0, 0)`, position `(5, 7)` in chunk `(0, 0)`. -/
theorem update_same_center_noop_witness :
    update_visible_chunks tg0 ng0 R0
        (⟨∅, some (0, 0), [], ((0, 0) : ℤ × ℕ)⟩ : StreamState (ℤ × ℕ))
        (some ((5 : ℚ), (7 : ℚ)))
      = (⟨∅, some (0, 0), [], ((0, 0) : ℤ × ℕ)⟩, []) :=
  update_same_center_noop tg0 ng0 R0 _ ((5 : ℚ), (7 : ℚ))
    (by norm_num [tg0, getTerrainSettings])

/-! ### Claim C5 -/

/-- C5 (amended): every chunk built during an `update_visible_chunks` call
receives a `generate_chunk_features` invocation iff `generate_features` is
enabled and the chunk lies within the strict inner radius
`view_distance - 1` of the ORIGIN chunk `(0, 0)` — not of the visible set's
center chunk; chunks outside that origin-centered inner disc receive no
features. -/
theorem update_features_origin_condition (tg : TGSettings) (ng : NoiseGenerator)
    {S : Type} (R : RandomModel S) (s : StreamState S) (pos : Option (ℚ × ℚ)) :
    ∀ kf ∈ (update_visible_chunks tg ng R s pos).2,
      (kf.2 = true
        ↔ codeFeatureCondition tg.generate_features tg.view_distance kf.1) := by
  match pos with
  | none =>
    intro kf hkf
    simp [update_visible_chunks] at hkf
  | some p =>
    unfold update_visible_chunks
    dsimp only
    split_ifs with h
    · intro kf hkf
      simp at hkf
    · dsimp only
      apply loadFold_flags
      · exact (List.mergeSort_perm _ _).symm.nodup ((visibleList_nodup _ _).filter _)
      · intro k hk
        rw [(List.mergeSort_perm _ _).mem_iff, List.mem_filter,
          decide_eq_true_eq] at hk
        exact hk.2
      · intro kf hkf
        simp at hkf

/-- In the update that recenters the stream on chunk `(100, 0)`, chunk
`(100, 0)` itself is built and receives NO feature invocation. -/
theorem built100 :
    ((100, 0), false) ∈ (update_visible_chunks tg0 ng0 R0
      (initState ((0, 0) : ℤ × ℕ)) (some ((1600 : ℚ), (0 : ℚ)))).2 := by
  have hfx : (⌊(1600 : ℚ) / tg0.chunk_size⌋ : ℤ) = 100 := by
    norm_num [tg0, getTerrainSettings]
  have hfy : (⌊(0 : ℚ) / tg0.chunk_size⌋ : ℤ) = 0 := by
    norm_num [tg0, getTerrainSettings]
  unfold update_visible_chunks
  dsimp only
  rw [hfx, hfy]
  rw [if_neg (by simp [initState])]
  dsimp only [initState]
  have hmem : ((100 : ℤ), (0 : ℤ)) ∈
      ((visibleList ((100 : ℤ), (0 : ℤ)) tg0.view_distance).filter
        (fun k => decide (k ∉ (∅ : Finset (ℤ × ℤ)) \ ((∅ : Finset (ℤ × ℤ)) \
          visibleChunks ((100 : ℤ), (0 : ℤ)) tg0.view_distance)))).mergeSort
        (chunkLE ((100 : ℤ), (0 : ℤ))) := by
    rw [(List.mergeSort_perm _ _).mem_iff, List.mem_filter, decide_eq_true_eq]
    refine ⟨(mem_visibleList _ _ _).mpr ?_, by simp⟩
    refine ⟨⟨?_, ?_⟩, ⟨?_, ?_⟩, ?_⟩ <;> decide
  have hkeys := loadFold_keys tg0 ng0 R0
    (((visibleList ((100 : ℤ), (0 : ℤ)) tg0.view_distance).filter
      (fun k => decide (k ∉ (∅ : Finset (ℤ × ℤ)) \ ((∅ : Finset (ℤ × ℤ)) \
        visibleChunks ((100 : ℤ), (0 : ℤ)) tg0.view_distance)))).mergeSort
      (chunkLE ((100 : ℤ), (0 : ℤ))))
    (((∅ : Finset (ℤ × ℤ)) \ ((∅ : Finset (ℤ × ℤ)) \
        visibleChunks ((100 : ℤ), (0 : ℤ)) tg0.view_distance),
      ([] : HeightCache), ((0, 0) : ℤ × ℕ)), [])
  rw [List.map_nil, List.nil_append] at hkeys
  have hmem2 : ((100 : ℤ), (0 : ℤ)) ∈
      ((((visibleList ((100 : ℤ), (0 : ℤ)) tg0.view_distance).filter
        (fun k => decide (k ∉ (∅ : Finset (ℤ × ℤ)) \ ((∅ : Finset (ℤ × ℤ)) \
          visibleChunks ((100 : ℤ), (0 : ℤ)) tg0.view_distance)))).mergeSort
        (chunkLE ((100 : ℤ), (0 : ℤ)))).foldl (loadStep tg0 ng0 R0)
        (((∅ : Finset (ℤ × ℤ)) \ ((∅ : Finset (ℤ × ℤ)) \
            visibleChunks ((100 : ℤ), (0 : ℤ)) tg0.view_distance),
          ([] : HeightCache), ((0, 0) : ℤ × ℕ)), [])).2.map Prod.fst := by
    rw [hkeys]
    exact hmem
  rcases List.mem_map.mp hmem2 with ⟨kf, hkf, hfst⟩
  have hflag := loadFold_flags tg0 ng0 R0
    (((visibleList ((100 : ℤ), (0 : ℤ)) tg0.view_distance).filter
      (fun k => decide (k ∉ (∅ : Finset (ℤ × ℤ)) \ ((∅ : Finset (ℤ × ℤ)) \
        visibleChunks ((100 : ℤ), (0 : ℤ)) tg0.view_distance)))).mergeSort
      (chunkLE ((100 : ℤ), (0 : ℤ))))
    (((∅ : Finset (ℤ × ℤ)) \ ((∅ : Finset (ℤ × ℤ)) \
        visibleChunks ((100 : ℤ), (0 : ℤ)) tg0.view_distance),
      ([] : HeightCache), ((0, 0) : ℤ × ℕ)), [])
    ((List.mergeSort_perm _ _).symm.nodup ((visibleList_nodup _ _).filter _))
    (by
      intro k hk
      rw [(List.mergeSort_perm _ _).mem_iff, List.mem_filter,
        decide_eq_true_eq] at hk
      exact hk.2)
    (by intro kf' hkf'; simp at hkf')
    kf hkf
  have hcond : ¬ codeFeatureCondition tg0.generate_features tg0.view_distance kf.1 := by
    rw [hfst]
    intro hc
    have := hc.2.2
    norm_num [tg0, getTerrainSettings] at this
  have hfalse : kf.2 = false := by
    rcases Bool.eq_false_or_eq_true kf.2 with hb | hb
    · exact absurd (hflag.mp hb) hcond
    · exact hb
  rcases kf with ⟨k, b⟩
  dsimp only at hfst hfalse
  rw [hfst] at hkf
  rw [hfalse] at hkf
  exact hkf

/-- C5 counterexample: with default settings (`view_distance = 3`,
`generate_features` on), updating from the initial state to position
`(1600, 0)` recenters on chunk `(100, 0)` and builds chunk `(100, 0)` — the
visible set's center itself, distance 0 from the center, which the claim
says must receive features — yet `generate_chunk_features` is not invoked
for it, because the code measures the chunk's distance to the origin
(`sqrt(100²) = 100 ≥ view_distance - 1`). -/
theorem update_features_counterexample :
    ((100, 0), false) ∈ (update_visible_chunks tg0 ng0 R0
        (initState ((0, 0) : ℤ × ℕ)) (some ((1600 : ℚ), (0 : ℚ)))).2 ∧
    (update_visible_chunks tg0 ng0 R0 (initState ((0, 0) : ℤ × ℕ))
        (some ((1600 : ℚ), (0 : ℚ)))).1.current_center_chunk = some (100, 0) ∧
    specFeatureCondition tg0.generate_features tg0.view_distance
      (100, 0) (100, 0) := by
  refine ⟨built100, ?_, ?_⟩
  · have hc := streamStep_center tg0 ng0 R0 (initState ((0, 0) : ℤ × ℕ))
      ((1600 : ℚ), (0 : ℚ))
    unfold streamStep at hc
    rw [hc]
    have hfx : (⌊(1600 : ℚ) / tg0.chunk_size⌋ : ℤ) = 100 := by
      norm_num [tg0, getTerrainSettings]
    have hfy : (⌊(0 : ℚ) / tg0.chunk_size⌋ : ℤ) = 0 := by
      norm_num [tg0, getTerrainSettings]
    rw [hfx, hfy]
  · exact ⟨rfl, by decide, by decide⟩

/-- Witness for the amended C5 at the concrete built chunk `(100, 0)`. -/
theorem update_features_origin_condition_witness :
    ((((100, 0), false) : (ℤ × ℤ) × Bool).2 = true
      ↔ codeFeatureCondition tg0.generate_features tg0.view_distance
          ((((100, 0), false) : (ℤ × ℤ) × Bool)).1) :=
  update_features_origin_condition tg0 ng0 R0 (initState ((0, 0) : ℤ × ℕ))
    (some ((1600 : ℚ), (0 : ℚ))) ((100, 0), false) built100

/-! ### Claim C10 -/

/-- C10: `update_visible_chunks(None)` returns immediately: no chunk is
built or evicted and the entire state (`loaded_chunks`,
`current_center_chunk`, `height_cache`, random state) is unchanged. -/
theorem update_none_noop (tg : TGSettings) (ng : NoiseGenerator) {S : Type}
    (R : RandomModel S) (s : StreamState S) :
    update_visible_chunks tg ng R s none = (s, []) := rfl

end TerrainGen
